import Mathlib

/-!
Verification development for the `price_csv` package (src/price_csv/__init__.py).

The Python module is shallowly embedded: CSV rows (Python dicts mapping column
names to string values) become association lists `Rec`; the regex-based
normalizer, the substring matcher `GameCompare.get_ids`, the category filter
`GameCompare.parse`, `money_to_float`, the `csv.DictWriter`-based writers and
the price-tier function `gamestop_to_ours` become executable Lean functions.
Python exceptions (KeyError from dict access, ValueError from `float` and from
`csv.DictWriter`) are modelled with `Option` / `Except`.
-/

namespace PriceCsv

/-- A Python dict mapping column names to string values, as produced by
`csv.DictReader`: an association list; lookup returns the first binding. -/
abbrev Rec := List (String × String)

/-- Python `d[k]` read access: `some` value, or `none` for a KeyError. -/
def dictGet : Rec → String → Option String
  | [], _ => none
  | (k', v) :: rest, k => if k' = k then some v else dictGet rest k

/-- Python `d[k] = v`: overwrite the (first) existing binding in place,
otherwise append the new key at the end (dict insertion order). -/
def dictSet : Rec → String → String → Rec
  | [], k, v => [(k, v)]
  | (k', v') :: rest, k, v =>
    if k' = k then (k, v) :: rest else (k', v') :: dictSet rest k v

/-- Python `k in d.keys()`. -/
def hasKey (d : Rec) (k : String) : Bool := (dictGet d k).isSome

/-- The character class of `STRIP_REGEX = re.compile(r'[ _$!.]')` (line 11). -/
def STRIP_CHARS : List Char := [' ', '_', '$', '!', '.']

/-- ASCII lowercasing of one character, as Python `str.lower` acts on the
ASCII text these CSV columns hold. -/
def lowerChar (c : Char) : Char :=
  if 'A' ≤ c ∧ c ≤ 'Z' then Char.ofNat (c.toNat + 32) else c

/-- Python `s.lower()` on ASCII text. -/
def lowerString (s : String) : String := (s.toList.map lowerChar).asString

/-- `STRIP_REGEX.sub('', s.lower())`: lowercase, then delete every character
of the strip class (lines 11 and 203). -/
def normalize (s : String) : String :=
  (((lowerString s).toList).filter (fun c => !(STRIP_CHARS.contains c))).asString

/-- Whether `needle` occurs at the start of `hay`. -/
def startsWith : List Char → List Char → Bool
  | [], _ => true
  | _ :: _, [] => false
  | a :: as, b :: bs => a == b && startsWith as bs

/-- Whether `needle` occurs contiguously inside `hay`; the empty needle
always occurs, exactly as Python's `in` on strings. -/
def occursIn (needle : List Char) : List Char → Bool
  | [] => needle.isEmpty
  | c :: rest => startsWith needle (c :: rest) || occursIn needle rest

/-- Python `a in b` on strings (line 203). -/
def isSubstr (a b : String) : Bool := occursIn a.toList b.toList

/-- The inner loop of `GameCompare.get_ids` (lines 201-206) for one inventory
record `i`: iterate over the reference records, and on each record `k` whose
normalized `product-name` is a substring of the normalized `desc` of `i`,
execute `i['id'] = k['id']` and append `k` to the running match list.  There is
no `break`, so the scan continues past a hit.  A KeyError from any of the dict
accesses (`k.name`, `i.name`, `k['id']`) aborts with `none`. -/
def scanRefs (i : Rec) (acc : List Rec) : List Rec → Option (Rec × List Rec)
  | [] => some (i, acc)
  | k :: ks => do
    let kn ← dictGet k "product-name"
    let inm ← dictGet i "desc"
    if isSubstr (normalize kn) (normalize inm) then do
      let kid ← dictGet k "id"
      scanRefs (dictSet i "id" kid) (acc ++ [k]) ks
    else
      scanRefs i acc ks

/-- Scanning the whole reference partition for one inventory record. -/
def matchStep (others : List Rec) (i : Rec) : Option (Rec × List Rec) :=
  scanRefs i [] others

/-- The outer loop of `GameCompare.get_ids` (line 201): scan each inventory
record in turn, collecting the (possibly mutated) record and the reference
records it matched. -/
def scanAll (others : List Rec) : List Rec → Option (List (Rec × List Rec))
  | [] => some []
  | i :: is => do
    let r ← matchStep others i
    let rest ← scanAll others is
    pure (r :: rest)

/-- `GameCompare.get_ids` (lines 199-208): scan every inventory record of the
category partition against the reference partition, then split the (mutated)
inventory records into `with_ids` (records whose keys contain `'id'`) and
`without_ids` (the rest), each preserving scan order.  Returns
`(with_ids, without_ids, matches)` where `matches` is the flat list of
reference records appended to `self.matches`. -/
def get_ids (cur others : List Rec) : Option (List Rec × List Rec × List Rec) := do
  let results ← scanAll others cur
  let scanned := results.map Prod.fst
  let ms := results.foldl (fun a r => a ++ r.2) []
  pure (scanned.filter (fun x => hasKey x "id"),
        scanned.filter (fun x => !(hasKey x "id")),
        ms)

/-- One side of `GameCompare.parse` (lines 196-197): keep the records whose
value at `key`, lowercased, equals the (already lowercased) match value; a
missing key is a KeyError. -/
def filterByKey (key mv : String) : List Rec → Option (List Rec)
  | [] => some []
  | x :: xs => do
    let v ← dictGet x key
    let rest ← filterByKey key mv xs
    if lowerString v = mv then pure (x :: rest) else pure rest

/-- `GameCompare.parse` (lines 183-197) with a string match value: lowercase
the match value, then filter the two collections independently. -/
def parse (cur other : List Rec) (curkey otherkey matchvalue : String) :
    Option (List Rec × List Rec) := do
  let mv := lowerString matchvalue
  let c ← filterByKey curkey mv cur
  let o ← filterByKey otherkey mv other
  pure (c, o)

/-- Value of a digit string, most significant first. -/
def digitsVal (l : List Char) : Nat :=
  l.foldl (fun a c => a * 10 + (c.toNat - 48)) 0

/-- The digit strings of a finite decimal literal: an optional sign followed
by digits with at most one decimal point and at least one digit (`"12"`,
`"12."`, `".5"`, `"-3.25"`).  Returns the signed mantissa and the number of
fractional digits, or `none` for a Python ValueError. -/
def decParts (l : List Char) : Option (Int × Nat) :=
  let signed : Int × List Char :=
    match l with
    | '+' :: rest => (1, rest)
    | '-' :: rest => (-1, rest)
    | rest => (1, rest)
  match (signed.2).splitOn '.' with
  | [a] =>
    if a.all Char.isDigit ∧ a ≠ [] then some (signed.1 * digitsVal a, 0) else none
  | [a, b] =>
    if a.all Char.isDigit ∧ b.all Char.isDigit ∧ (a ≠ [] ∨ b ≠ []) then
      some (signed.1 * (digitsVal a * 10 ^ b.length + digitsVal b), b.length)
    else none
  | _ => none

/-- The rational value of a parsed decimal literal. -/
def ratOfParts (p : Int × Nat) : Rat := (p.1 : Rat) / (10 : Rat) ^ p.2

/-- Model of Python `float(s)` on finite decimal strings.  Exact rational
arithmetic stands in for IEEE doubles: every literal the program compares or
prints is a short decimal, so no double-rounding is observable at the
granularity of the claims. -/
def parseDecimal (s : String) : Option Rat :=
  (decParts s.toList).map ratOfParts

/-- `money_to_float` (lines 240-244): delete every `'$'` and `' '`, then
`float(...)`; a ValueError is caught and turned into `None`. -/
def money_to_float (money_string : String) : Option Rat :=
  parseDecimal ((money_string.toList.filter (fun c => c ≠ '$' ∧ c ≠ ' ')).asString)

/-- Python 3 `round` to an integer: nearest, ties to even. -/
def pyRound (q : Rat) : Int :=
  let f : Int := ⌊q⌋
  let r : Rat := q - (f : Rat)
  if r < 1/2 then f
  else if 1/2 < r then f + 1
  else if f % 2 = 0 then f else f + 1

/-- Python `str` on the value `round(price*0.9) - 0.01` of the last tier
(line 314): that value is always `n - 1/100` for an integer `n ≥ 48`, so it
prints as whole part, a point, and two fractional digits. -/
def moneyStr (q : Rat) : String :=
  let cents : Nat := (⌊q * 100⌋).toNat
  let w := cents / 100
  let c := cents % 100
  toString w ++ "." ++ (if c < 10 then "0" else "") ++ toString c

/-- `gamestop_to_ours` (lines 276-315): `ours` starts as `None` and each `if`
(none is an `elif`) overwrites it; the first branch stores the *number*
`price` itself, every other branch stores a *string*.  `Sum.inl` is a Python
float result, `Sum.inr` a Python string result. -/
def gamestop_to_ours (price : Rat) : Option (Rat ⊕ String) :=
  let ours : Option (Rat ⊕ String) := none
  let ours := if price ≤ 799/100 then some (Sum.inl price) else ours
  let ours := if 799/100 < price ∧ price ≤ 899/100 then some (Sum.inr "7.99") else ours
  let ours := if 9 < price ∧ price ≤ 999/100 then some (Sum.inr "8.99") else ours
  let ours := if 10 < price ∧ price ≤ 1399/100 then some (Sum.inr "10.99") else ours
  let ours := if 14 < price ∧ price ≤ 1499/100 then some (Sum.inr "11.99") else ours
  let ours := if 15 < price ∧ price ≤ 1799/100 then some (Sum.inr "14.99") else ours
  let ours := if 18 < price ∧ price ≤ 1999/100 then some (Sum.inr "15.99") else ours
  let ours := if 20 < price ∧ price ≤ 2499/100 then some (Sum.inr "21.99") else ours
  let ours := if 25 < price ∧ price ≤ 2799/100 then some (Sum.inr "23.99") else ours
  let ours := if 28 < price ∧ price ≤ 3198/100 then some (Sum.inr "25.99") else ours
  let ours := if 3199/100 < price ∧ price ≤ 3499/100 then some (Sum.inr "31.99") else ours
  let ours := if 35 < price ∧ price ≤ 3699/100 then some (Sum.inr "33.99") else ours
  let ours := if 37 < price ∧ price ≤ 3999/100 then some (Sum.inr "35.99") else ours
  let ours := if 40 < price ∧ price ≤ 4798/100 then some (Sum.inr "37.99") else ours
  let ours := if 4799/100 < price ∧ price ≤ 5299/100 then some (Sum.inr "47.99") else ours
  let ours := if 5299/100 < price then
    some (Sum.inr (moneyStr ((pyRound (price * (9/10)) : Rat) - 1/100))) else ours
  ours

/-- The three record classes of lines 15-95, distinguished by which Python
class wraps the row dict. -/
inductive ItemKind
  | inventory
  | gamestop
  | pricecharting
deriving DecidableEq, Repr

/-- A wrapped row: the class it was constructed with and its dict. -/
structure Item where
  kind : ItemKind
  data : Rec
deriving DecidableEq, Repr

/-- The `name` property of each class: `InventoryItem.name` reads `'desc'`
(line 30), `GamestopItem.name` and `PriceChartingItem.name` read
`'product-name'` (lines 55 and 84). -/
def itemName (it : Item) : Option String :=
  match it.kind with
  | .inventory => dictGet it.data "desc"
  | .gamestop => dictGet it.data "product-name"
  | .pricecharting => dictGet it.data "product-name"

/-- `GamestopItem.price` (lines 58-59): `money_to_float` of the
`'gamestop-price'` column; defined only for gamestop-typed items. -/
def itemGamestopPrice (it : Item) : Option (Option Rat) :=
  match it.kind with
  | .gamestop => (dictGet it.data "gamestop-price").map money_to_float
  | _ => none

/-- `GamestopItem.trade_price` (lines 62-63): `money_to_float` of the
`'gamestop-trade-price'` column; defined only for gamestop-typed items. -/
def itemGamestopTradePrice (it : Item) : Option (Option Rat) :=
  match it.kind with
  | .gamestop => (dictGet it.data "gamestop-trade-price").map money_to_float
  | _ => none

/-- `ItemCollection.__init__` with `csv_list` (lines 114-115): wrap every row
dict with the item constructor that was passed in. -/
def ItemCollection_fromList (mk : Rec → Item) (l : List Rec) : List Item :=
  l.map mk

/-- `GamestopCollection.__init__` (lines 139-141): the source passes
`InventoryItem` — not `GamestopItem` — to the base constructor, so every
record is wrapped as an inventory item. -/
def GamestopCollection_fromList (l : List Rec) : List Item :=
  ItemCollection_fromList (fun d => ⟨ItemKind.inventory, d⟩) l

/-- `EXPORT_KEYS` (line 10): the fixed output header. -/
def EXPORT_KEYS : List String :=
  ["sku", "desc", "vend", "dept", "cash", "trade", "price", "tax", "id", "new-price"]

/-- `csv.DictWriter._dict_to_list` with the default `extrasaction='raise'`
and `restval=''`: a row carrying a key outside `fieldnames` raises ValueError
(the list of offending keys); otherwise each field is the row's value at the
key, or empty when the key is absent. -/
def dictToRow (fieldnames : List String) (restval : String) (d : Rec) :
    Except (List String) (List String) :=
  let wrongfields := (d.map Prod.fst).filter (fun k => !(fieldnames.contains k))
  if wrongfields = [] then
    Except.ok (fieldnames.map (fun k => (dictGet d k).getD restval))
  else
    Except.error wrongfields

/-- `writer.writerows` (line 214): convert each record in order, propagating
the first ValueError. -/
def writeRows : List Rec → Except (List String) (List (List String))
  | [] => Except.ok []
  | d :: ds => do
    let r ← dictToRow EXPORT_KEYS "" d
    let rest ← writeRows ds
    pure (r :: rest)

/-- `GameCompare.write_with_ids` (lines 210-214), abstracted from the file
handle: the header row followed by one row per record, or the ValueError of
the first record with an unlisted key. -/
def write_with_ids (rows : List Rec) : Except (List String) (List (List String)) :=
  (writeRows rows).map (fun rs => EXPORT_KEYS :: rs)

/-- Whether a reference record satisfies the substring test of line 203
against the inventory description `desc`. -/
def refMatches (desc : String) (k : Rec) : Bool :=
  match dictGet k "product-name" with
  | some n => isSubstr (normalize n) (normalize desc)
  | none => false

/-- The last record of the list satisfying the substring test against
`desc`, if any. -/
def lastMatchRef (desc : String) : List Rec → Option Rec
  | [] => none
  | k :: ks =>
    match lastMatchRef desc ks with
    | some r => some r
    | none => if refMatches desc k then some k else none

theorem dictGet_dictSet_self (d : Rec) (k v : String) :
    dictGet (dictSet d k v) k = some v := by
  induction d with
  | nil => simp [dictSet, dictGet]
  | cons p rest ih =>
    obtain ⟨pk, pv⟩ := p
    by_cases h : pk = k
    · simp [dictSet, h, dictGet]
    · simp [dictSet, h, dictGet, ih]

theorem dictGet_dictSet_ne (d : Rec) (k k' v : String) (h : k' ≠ k) :
    dictGet (dictSet d k v) k' = dictGet d k' := by
  induction d with
  | nil => simp [dictSet, dictGet, Ne.symm h]
  | cons p rest ih =>
    obtain ⟨pk, pv⟩ := p
    by_cases hp : pk = k
    · simp [dictSet, hp, dictGet, Ne.symm h]
    · simp [dictSet, hp, dictGet, ih]

theorem occursIn_nil (l : List Char) : occursIn [] l = true := by
  cases l <;> simp [occursIn, startsWith, List.isEmpty]

theorem isSubstr_empty_left (b : String) : isSubstr "" b = true :=
  occursIn_nil _

theorem isSubstr_empty_right (a : String) (h : a ≠ "") : isSubstr a "" = false := by
  have hne : a.toList ≠ [] := by
    intro hl
    apply h
    rw [← String.asString_toList a, hl]
    decide
  unfold isSubstr occursIn
  cases hl : a.toList with
  | nil => exact absurd hl hne
  | cons c cs => simp [List.isEmpty]

theorem scanRefs_frame (others : List Rec) :
    ∀ (i : Rec) (acc : List Rec) (r : Rec) (ms : List Rec),
    scanRefs i acc others = some (r, ms) →
    ∀ key, key ≠ "id" → dictGet r key = dictGet i key := by
  induction others with
  | nil =>
    intro i acc r ms h key _
    simp only [scanRefs, Option.some.injEq, Prod.mk.injEq] at h
    rw [← h.1]
  | cons k ks ih =>
    intro i acc r ms h key hk
    cases hkn : dictGet k "product-name" with
    | none => simp [scanRefs, hkn] at h
    | some kn =>
      cases hdesc : dictGet i "desc" with
      | none => simp [scanRefs, hkn, hdesc] at h
      | some inm =>
        by_cases hm : isSubstr (normalize kn) (normalize inm) = true
        · cases hkid : dictGet k "id" with
          | none => simp [scanRefs, hkn, hdesc, hm, hkid] at h
          | some kid =>
            have h' : scanRefs (dictSet i "id" kid) (acc ++ [k]) ks = some (r, ms) := by
              simpa [scanRefs, hkn, hdesc, hm, hkid] using h
            rw [ih _ _ _ _ h' key hk, dictGet_dictSet_ne _ _ _ _ hk]
        · have h' : scanRefs i acc ks = some (r, ms) := by
            simpa [scanRefs, hkn, hdesc, hm] using h
          exact ih _ _ _ _ h' key hk

theorem scanRefs_matches (desc : String) (others : List Rec) :
    ∀ (i : Rec) (acc : List Rec) (r : Rec) (ms : List Rec),
    dictGet i "desc" = some desc →
    scanRefs i acc others = some (r, ms) →
    ms = acc ++ others.filter (refMatches desc) := by
  induction others with
  | nil =>
    intro i acc r ms _ h
    simp only [scanRefs, Option.some.injEq, Prod.mk.injEq] at h
    simp [← h.2]
  | cons k ks ih =>
    intro i acc r ms hdesc h
    cases hkn : dictGet k "product-name" with
    | none => simp [scanRefs, hkn] at h
    | some kn =>
      have hrm : refMatches desc k = isSubstr (normalize kn) (normalize desc) := by
        simp [refMatches, hkn]
      by_cases hm : isSubstr (normalize kn) (normalize desc) = true
      · cases hkid : dictGet k "id" with
        | none => simp [scanRefs, hkn, hdesc, hm, hkid] at h
        | some kid =>
          have h' : scanRefs (dictSet i "id" kid) (acc ++ [k]) ks = some (r, ms) := by
            simpa [scanRefs, hkn, hdesc, hm, hkid] using h
          have hdesc' : dictGet (dictSet i "id" kid) "desc" = some desc := by
            rw [dictGet_dictSet_ne _ _ _ _ (by decide)]
            exact hdesc
          rw [ih _ _ _ _ hdesc' h', List.filter_cons_of_pos (by rw [hrm]; exact hm)]
          simp
      · have h' : scanRefs i acc ks = some (r, ms) := by
          simpa [scanRefs, hkn, hdesc, hm] using h
        rw [ih _ _ _ _ hdesc h', List.filter_cons_of_neg (by rw [hrm]; exact hm)]

theorem scanRefs_id (desc : String) (others : List Rec) :
    ∀ (i : Rec) (acc : List Rec) (r : Rec) (ms : List Rec),
    dictGet i "desc" = some desc →
    scanRefs i acc others = some (r, ms) →
    dictGet r "id" = (match lastMatchRef desc others with
      | some k => dictGet k "id"
      | none => dictGet i "id") := by
  induction others with
  | nil =>
    intro i acc r ms _ h
    simp only [scanRefs, Option.some.injEq, Prod.mk.injEq] at h
    rw [← h.1]
    rfl
  | cons k ks ih =>
    intro i acc r ms hdesc h
    cases hkn : dictGet k "product-name" with
    | none => simp [scanRefs, hkn] at h
    | some kn =>
      have hrm : refMatches desc k = isSubstr (normalize kn) (normalize desc) := by
        simp [refMatches, hkn]
      by_cases hm : isSubstr (normalize kn) (normalize desc) = true
      · cases hkid : dictGet k "id" with
        | none => simp [scanRefs, hkn, hdesc, hm, hkid] at h
        | some kid =>
          have h' : scanRefs (dictSet i "id" kid) (acc ++ [k]) ks = some (r, ms) := by
            simpa [scanRefs, hkn, hdesc, hm, hkid] using h
          have hdesc' : dictGet (dictSet i "id" kid) "desc" = some desc := by
            rw [dictGet_dictSet_ne _ _ _ _ (by decide)]
            exact hdesc
          have hid := ih _ _ _ _ hdesc' h'
          cases hl : lastMatchRef desc ks with
          | some r' => simp only [lastMatchRef, hl] at hid ⊢; exact hid
          | none =>
            simp only [lastMatchRef, hl] at hid ⊢
            rw [if_pos (by rw [hrm]; exact hm)]
            rw [hid, dictGet_dictSet_self]
            exact hkid.symm
      · have h' : scanRefs i acc ks = some (r, ms) := by
          simpa [scanRefs, hkn, hdesc, hm] using h
        have hid := ih _ _ _ _ hdesc h'
        cases hl : lastMatchRef desc ks with
        | some r' => simp only [lastMatchRef, hl] at hid ⊢; exact hid
        | none =>
          simp only [lastMatchRef, hl] at hid ⊢
          rw [if_neg (by rw [hrm]; simpa using hm)]
          exact hid

theorem scanAll_spec (others : List Rec) :
    ∀ (cur : List Rec) (results : List (Rec × List Rec)),
    scanAll others cur = some results →
    results.length = cur.length ∧
    ∀ n (h : n < cur.length) (h' : n < results.length),
      matchStep others (cur.get ⟨n, h⟩) = some (results.get ⟨n, h'⟩) := by
  intro cur
  induction cur with
  | nil =>
    intro results h
    simp only [scanAll, Option.some.injEq] at h
    subst h
    exact ⟨rfl, fun n h _ => absurd h (Nat.not_lt_zero n)⟩
  | cons i is ih =>
    intro results h
    cases hr : matchStep others i with
    | none => simp [scanAll, hr] at h
    | some r =>
      cases hrest : scanAll others is with
      | none => simp [scanAll, hr, hrest] at h
      | some rest =>
        have hres : results = r :: rest := by
          simpa [scanAll, hr, hrest] using h.symm
        subst hres
        obtain ⟨hlen, hpt⟩ := ih rest hrest
        refine ⟨by simp [hlen], ?_⟩
        intro n hn hn'
        cases n with
        | zero => simpa using hr
        | succ m =>
          have hm : m < is.length := by simpa using hn
          have hm' : m < rest.length := by simpa using hn'
          simpa using hpt m hm hm'

theorem filter_not_filter_perm {α : Type} (p : α → Bool) (l : List α) :
    (l.filter p ++ l.filter (fun a => !(p a))).Perm l := by
  induction l with
  | nil => simp
  | cons a t ih =>
    by_cases h : p a = true
    · simpa [List.filter_cons, h] using ih.cons a
    · have h' : p a = false := Bool.eq_false_iff.mpr h
      simp only [List.filter_cons, h', Bool.not_false, if_neg, Bool.false_eq_true,
        if_false, if_true]
      exact (List.perm_middle).trans (ih.cons a)

theorem filterByKey_spec (key mv : String) :
    ∀ l : List Rec, (∀ x ∈ l, (dictGet x key).isSome) →
    filterByKey key mv l =
      some (l.filter (fun x => decide (lowerString ((dictGet x key).getD "") = mv))) := by
  intro l
  induction l with
  | nil => intro _; rfl
  | cons x xs ih =>
    intro hall
    obtain ⟨v, hv⟩ := Option.isSome_iff_exists.mp (hall x (by simp))
    have hxs := ih (fun y hy => hall y (by simp [hy]))
    by_cases hm : lowerString v = mv
    · simp [filterByKey, hv, hxs, hm, List.filter_cons]
    · simp [filterByKey, hv, hxs, hm, List.filter_cons]

theorem dictToRow_ok (d : Rec) (h : ∀ kv ∈ d, kv.1 ∈ EXPORT_KEYS) :
    dictToRow EXPORT_KEYS "" d =
      Except.ok (EXPORT_KEYS.map (fun k => (dictGet d k).getD "")) := by
  have hnil : ((d.map Prod.fst).filter (fun k => !(EXPORT_KEYS.contains k))) = [] := by
    rw [List.filter_eq_nil_iff]
    intro a ha
    obtain ⟨kv, hkv, hfst⟩ := List.mem_map.mp ha
    subst hfst
    simp [List.contains, List.elem_iff, h kv hkv]
  simp only [dictToRow, hnil, if_pos]

theorem writeRows_ok :
    ∀ rows : List Rec, (∀ d ∈ rows, ∀ kv ∈ d, kv.1 ∈ EXPORT_KEYS) →
    writeRows rows =
      Except.ok (rows.map (fun d => EXPORT_KEYS.map (fun k => (dictGet d k).getD ""))) := by
  intro rows
  induction rows with
  | nil => intro _; rfl
  | cons d ds ih =>
    intro hall
    rw [writeRows, dictToRow_ok d (hall d (by simp)),
      ih (fun e he => hall e (by simp [he]))]
    rfl

theorem pyRound_intCast (n : Int) : pyRound ((n : Rat)) = n := by
  simp only [pyRound, Int.floor_intCast]
  norm_num

/-- Claim C1, counterexample: on the spec's own example — inventory
description "Super Mario Bros. NES Cart" against the reference partition
ordered [mario bros, super mario], both of whose names match — the scan does
NOT stop at the first hit: both reference records are recorded in `matches`
and the attached identifier is "2", the id of the second (last) matching
reference record, not "1", the id of the first. -/
theorem claim_C1_counterexample :
    refMatches "Super Mario Bros. NES Cart"
      [("product-name", "mario bros"), ("id", "1")] = true ∧
    get_ids [[("desc", "Super Mario Bros. NES Cart")]]
        [[("product-name", "mario bros"), ("id", "1")],
         [("product-name", "super mario"), ("id", "2")]] =
      some ([[("desc", "Super Mario Bros. NES Cart"), ("id", "2")]], [],
        [[("product-name", "mario bros"), ("id", "1")],
         [("product-name", "super mario"), ("id", "2")]]) ∧
    dictGet [("desc", "Super Mario Bros. NES Cart"), ("id", "2")] "id" ≠
      dictGet [("product-name", "mario bros"), ("id", "1")] "id" := by
  refine ⟨by decide, by decide, by decide⟩

/-- Claim C1, amended: the inner scan of `get_ids` checks EVERY reference
record (each matching one is appended to `matches`), and when several
reference names match, the identifier attached is that of the LAST matching
reference record in reference-partition order (each later hit overwrites the
`'id'` key); when none matches, the `'id'` key is untouched. -/
theorem claim_C1 (others : List Rec) (i r : Rec) (ms : List Rec) (desc : String)
    (hdesc : dictGet i "desc" = some desc)
    (h : matchStep others i = some (r, ms)) :
    ms = others.filter (refMatches desc) ∧
    dictGet r "id" = (match lastMatchRef desc others with
      | some k => dictGet k "id"
      | none => dictGet i "id") := by
  refine ⟨?_, scanRefs_id desc others i [] r ms hdesc h⟩
  simpa using scanRefs_matches desc others i [] r ms hdesc h

theorem claim_C1_witness :
    ([[("product-name", "mario bros"), ("id", "1")],
      [("product-name", "super mario"), ("id", "2")]] : List Rec) =
      List.filter (refMatches "Super Mario Bros. NES Cart")
        [[("product-name", "mario bros"), ("id", "1")],
         [("product-name", "super mario"), ("id", "2")]] ∧
    dictGet [("desc", "Super Mario Bros. NES Cart"), ("id", "2")] "id" =
      (match lastMatchRef "Super Mario Bros. NES Cart"
          [[("product-name", "mario bros"), ("id", "1")],
           [("product-name", "super mario"), ("id", "2")]] with
        | some k => dictGet k "id"
        | none => dictGet [("desc", "Super Mario Bros. NES Cart")] "id") :=
  claim_C1
    [[("product-name", "mario bros"), ("id", "1")],
     [("product-name", "super mario"), ("id", "2")]]
    [("desc", "Super Mario Bros. NES Cart")]
    [("desc", "Super Mario Bros. NES Cart"), ("id", "2")]
    [[("product-name", "mario bros"), ("id", "1")],
     [("product-name", "super mario"), ("id", "2")]]
    "Super Mario Bros. NES Cart" (by decide) (by decide)

/-- Claim C2, counterexample: a reference record whose normalized product
name is empty DOES match (Python's `in` holds vacuously, and `get_ids` has no
guard): scanning inventory record {desc: "game"} against the single reference
record {product-name: "", id: "9"} attaches id "9". -/
theorem claim_C2_counterexample :
    normalize "" = "" ∧
    get_ids [[("desc", "game")]] [[("product-name", ""), ("id", "9")]] =
      some ([[("desc", "game"), ("id", "9")]], [],
        [[("product-name", ""), ("id", "9")]]) := by
  refine ⟨by decide, by decide⟩

/-- Claim C2, amended: the substring check against an empty normalized string
follows Python's `in` with no guard: an empty normalized reference name
matches every inventory record (the id IS attached), while an inventory
record whose normalized description is empty is matched only by reference
names that also normalize to empty — a nonempty normalized reference name
does not match it. -/
theorem claim_C2 (i k : Rec) (desc kn kid : String)
    (hdesc : dictGet i "desc" = some desc)
    (hkn : dictGet k "product-name" = some kn)
    (hkid : dictGet k "id" = some kid) :
    (normalize kn = "" → matchStep [k] i = some (dictSet i "id" kid, [k])) ∧
    (normalize desc = "" → normalize kn ≠ "" → matchStep [k] i = some (i, [])) := by
  constructor
  · intro hn
    have hsub : isSubstr (normalize kn) (normalize desc) = true := by
      rw [hn]
      exact isSubstr_empty_left _
    simp [matchStep, scanRefs, hkn, hdesc, hsub, hkid]
  · intro hd hn
    have hsub : isSubstr (normalize kn) (normalize desc) = false := by
      rw [hd]
      exact isSubstr_empty_right _ hn
    simp [matchStep, scanRefs, hkn, hdesc, hsub]

theorem claim_C2_witness :
    matchStep [[("product-name", ""), ("id", "9")]] [("desc", "game")] =
      some (dictSet [("desc", "game")] "id" "9", [[("product-name", ""), ("id", "9")]]) :=
  (claim_C2 [("desc", "game")] [("product-name", ""), ("id", "9")] "game" "" "9"
    (by decide) (by decide) (by decide)).1 (by decide)

/-- Claim C3, confirmed: whenever `get_ids` succeeds, the post-scan inventory
records (`scanned`, the pointwise `matchStep` image of the inventory
partition) are exactly partitioned: every record of `with_ids` carries the
`'id'` key and every record of `without_ids` lacks it, both groups are
sublists of `scanned` (original relative order preserved), and their
concatenation is a permutation of `scanned` (each record lands in exactly one
group). -/
theorem claim_C3 (cur others w wo ms : List Rec)
    (h : get_ids cur others = some (w, wo, ms)) :
    ∃ scanned : List Rec,
      scanned.length = cur.length ∧
      (∀ n (hn : n < cur.length) (hn' : n < scanned.length), ∃ m : List Rec,
        matchStep others (cur.get ⟨n, hn⟩) = some (scanned.get ⟨n, hn'⟩, m)) ∧
      (∀ x ∈ w, hasKey x "id" = true) ∧
      (∀ x ∈ wo, hasKey x "id" = false) ∧
      w.Sublist scanned ∧ wo.Sublist scanned ∧
      (w ++ wo).Perm scanned := by
  cases hres : scanAll others cur with
  | none => simp [get_ids, hres] at h
  | some results =>
    have hsplit : w = (results.map Prod.fst).filter (fun x => hasKey x "id") ∧
        wo = (results.map Prod.fst).filter (fun x => !(hasKey x "id")) := by
      have h' := h
      simp only [get_ids, hres, Option.bind_eq_bind, Option.some_bind,
        Option.pure_def, Option.some.injEq, Prod.mk.injEq] at h'
      exact ⟨h'.1.symm, h'.2.1.symm⟩
    obtain ⟨hw, hwo⟩ := hsplit
    obtain ⟨hlen, hpt⟩ := scanAll_spec others cur results hres
    refine ⟨results.map Prod.fst, by simp [hlen], ?_, ?_, ?_, ?_, ?_, ?_⟩
    · intro n hn hn'
      have hn'' : n < results.length := by simpa using hn'
      refine ⟨(results.get ⟨n, hn''⟩).2, ?_⟩
      rw [hpt n hn hn'']
      congr 1
      simp [List.get_eq_getElem, List.getElem_map]
    · intro x hx
      rw [hw] at hx
      exact (List.mem_filter.mp hx).2
    · intro x hx
      rw [hwo] at hx
      simpa using (List.mem_filter.mp hx).2
    · rw [hw]
      exact List.filter_sublist _
    · rw [hwo]
      exact List.filter_sublist _
    · rw [hw, hwo]
      exact filter_not_filter_perm _ _

theorem claim_C3_witness :
    ∃ scanned : List Rec,
      scanned.length = ([[("desc", "crash bandicoot")]] : List Rec).length ∧
      (∀ n (hn : n < ([[("desc", "crash bandicoot")]] : List Rec).length)
        (hn' : n < scanned.length), ∃ m : List Rec,
        matchStep [] (([[("desc", "crash bandicoot")]] : List Rec).get ⟨n, hn⟩) =
          some (scanned.get ⟨n, hn'⟩, m)) ∧
      (∀ x ∈ ([] : List Rec), hasKey x "id" = true) ∧
      (∀ x ∈ ([[("desc", "crash bandicoot")]] : List Rec), hasKey x "id" = false) ∧
      List.Sublist ([] : List Rec) scanned ∧
      List.Sublist [[("desc", "crash bandicoot")]] scanned ∧
      (([] : List Rec) ++ [[("desc", "crash bandicoot")]]).Perm scanned :=
  claim_C3 [[("desc", "crash bandicoot")]] [] [] [[("desc", "crash bandicoot")]] []
    (by decide)

/-- Claim C4, counterexample: an inventory record whose description matches
two reference records is mutated twice: after scanning only the first
reference record its `'id'` is "1", after the full scan the second hit has
overwritten it to "2" — the second mutation is an overwrite of `'id'`, not
the addition of a new key, so "mutated at most once" fails. -/
theorem claim_C4_counterexample :
    matchStep [[("product-name", "mario"), ("id", "1")]]
        [("desc", "super mario bros")] =
      some ([("desc", "super mario bros"), ("id", "1")],
        [[("product-name", "mario"), ("id", "1")]]) ∧
    matchStep [[("product-name", "mario"), ("id", "1")],
               [("product-name", "super"), ("id", "2")]]
        [("desc", "super mario bros")] =
      some ([("desc", "super mario bros"), ("id", "2")],
        [[("product-name", "mario"), ("id", "1")],
         [("product-name", "super"), ("id", "2")]]) ∧
    (some "1" : Option String) ≠ some "2" := by
  refine ⟨by decide, by decide, by decide⟩

/-- Claim C4, amended: during the matching scan the only key ever written is
`'id'` — a scanned record agrees with the original on every other key, and
reference records are never written at all — but a record is assigned `'id'`
once PER matching reference record (each later hit overwriting the earlier),
not at most once. -/
theorem claim_C4 (others : List Rec) (i r : Rec) (ms : List Rec)
    (h : matchStep others i = some (r, ms)) :
    (∀ key, key ≠ "id" → dictGet r key = dictGet i key) ∧
    (∀ desc, dictGet i "desc" = some desc → ms = others.filter (refMatches desc)) := by
  constructor
  · exact scanRefs_frame others i [] r ms h
  · intro desc hdesc
    simpa using scanRefs_matches desc others i [] r ms hdesc h

theorem claim_C4_witness :
    dictGet [("desc", "super mario bros"), ("id", "2")] "desc" =
      dictGet [("desc", "super mario bros")] "desc" :=
  (claim_C4 [[("product-name", "mario"), ("id", "1")],
             [("product-name", "super"), ("id", "2")]]
    [("desc", "super mario bros")] [("desc", "super mario bros"), ("id", "2")]
    [[("product-name", "mario"), ("id", "1")], [("product-name", "super"), ("id", "2")]]
    (by decide)).1 "desc" (by decide)

/-- Claim C5, confirmed: when every record carries the category key,
`GameCompare.parse` keeps a record iff its category field, lowercased,
equals the lowercased target (expressed as a `List.filter`, which also
preserves original relative order and yields empty lists rather than an
error when nothing matches); and the partition is insensitive to the case of
the target: filtering on "NES" equals filtering on "nes". -/
theorem claim_C5 :
    (∀ (cur other : List Rec) (curkey otherkey matchvalue : String),
      (∀ x ∈ cur, (dictGet x curkey).isSome) →
      (∀ y ∈ other, (dictGet y otherkey).isSome) →
      parse cur other curkey otherkey matchvalue =
        some (cur.filter (fun x =>
            decide (lowerString ((dictGet x curkey).getD "") = lowerString matchvalue)),
          other.filter (fun y =>
            decide (lowerString ((dictGet y otherkey).getD "") = lowerString matchvalue)))) ∧
    (∀ (cur other : List Rec) (curkey otherkey : String),
      parse cur other curkey otherkey "NES" = parse cur other curkey otherkey "nes") := by
  constructor
  · intro cur other ck ok mv hc ho
    simp [parse, filterByKey_spec ck (lowerString mv) cur hc,
      filterByKey_spec ok (lowerString mv) other ho]
  · intro cur other ck ok
    simp only [parse]
    rw [show lowerString "NES" = "nes" from by decide,
      show lowerString "nes" = "nes" from by decide]

theorem claim_C5_witness :
    parse [[("dept", "NES")], [("dept", "snes")]] [[("console-name", "nes")]]
        "dept" "console-name" "NES" =
      some (([[("dept", "NES")], [("dept", "snes")]] : List Rec).filter (fun x =>
          decide (lowerString ((dictGet x "dept").getD "") = lowerString "NES")),
        ([[("console-name", "nes")]] : List Rec).filter (fun y =>
          decide (lowerString ((dictGet y "console-name").getD "") = lowerString "NES"))) :=
  claim_C5.1 [[("dept", "NES")], [("dept", "snes")]] [[("console-name", "nes")]]
    "dept" "console-name" "NES" (by decide) (by decide)

/-- Claim C6, confirmed: `money_to_float` deletes `'$'` and `' '` characters
and parses the rest as a decimal number — `money_to_float "$12.50"` is the
number 12.50 and equals `money_to_float "12.50"` — while a string whose
stripped form is not a decimal number, such as "N/A", yields `None` (the
ValueError is caught; the total `Option` result never aborts the pipeline). -/
theorem claim_C6 :
    money_to_float "$12.50" = some (25/2 : Rat) ∧
    money_to_float "$ 12.50" = money_to_float "12.50" ∧
    money_to_float "N/A" = none := by
  refine ⟨?_, rfl, rfl⟩
  have h : money_to_float "$12.50" = some (ratOfParts (1250, 2)) := rfl
  rw [h]
  simp only [ratOfParts]
  norm_num

/-- Claim C7, counterexample: `gamestop_to_ours(7.99)` takes the first branch
`ours = price`, which stores the NUMBER 7.99 itself, not the string
"7.99" — the claim `adjustPrice(7.99) == "7.99"` fails on the code. -/
theorem claim_C7_counterexample :
    gamestop_to_ours (799/100) = some (Sum.inl (799/100)) ∧
    (some (Sum.inl (799/100 : Rat)) : Option (Rat ⊕ String)) ≠ some (Sum.inr "7.99") := by
  constructor
  · simp only [gamestop_to_ours]
    norm_num
  · simp

/-- Claim C7, amended: `gamestop_to_ours(7.99)` returns the number 7.99
unchanged (the ≤ 7.99 branch returns the price itself, not the string
"7.99"); `gamestop_to_ours(8.50)` is the string "7.99";
`gamestop_to_ours(-5.00)` returns the number -5.00 unchanged; and for every
price strictly greater than 52.99 the result is the string
`str(round(price*0.9) - 0.01)` — in particular 60.00 yields "53.99". -/
theorem claim_C7 :
    gamestop_to_ours (799/100) = some (Sum.inl (799/100)) ∧
    gamestop_to_ours (850/100) = some (Sum.inr "7.99") ∧
    gamestop_to_ours (-5) = some (Sum.inl (-5)) ∧
    (∀ price : Rat, 5299/100 < price →
      gamestop_to_ours price =
        some (Sum.inr (moneyStr ((pyRound (price * (9/10)) : Rat) - 1/100)))) ∧
    gamestop_to_ours 60 = some (Sum.inr "53.99") := by
  have hall : ∀ price : Rat, 5299/100 < price →
      gamestop_to_ours price =
        some (Sum.inr (moneyStr ((pyRound (price * (9/10)) : Rat) - 1/100))) := by
    intro price h
    simp only [gamestop_to_ours]
    rw [if_pos h]
  have hstr : moneyStr (((54 : Int) : Rat) - 1/100) = "53.99" := by
    simp only [moneyStr]
    rw [show (((54 : Int) : Rat) - 1/100) * 100 = ((5399 : Int) : Rat) by norm_num,
      Int.floor_intCast]
    rfl
  refine ⟨by simp only [gamestop_to_ours]; norm_num,
    by simp only [gamestop_to_ours]; norm_num,
    by simp only [gamestop_to_ours]; norm_num,
    hall, ?_⟩
  rw [hall 60 (by norm_num),
    show (60 : Rat) * (9/10) = ((54 : Int) : Rat) by norm_num,
    pyRound_intCast, hstr]

theorem claim_C7_witness :
    gamestop_to_ours 60 =
      some (Sum.inr (moneyStr ((pyRound ((60 : Rat) * (9/10)) : Rat) - 1/100))) :=
  claim_C7.2.2.2.1 60 (by norm_num)

/-- Claim C8, code bug: `GamestopCollection.__init__` passes `InventoryItem`
to the base constructor (line 141) instead of `GamestopItem`, contradicting
the class's own name, its `'<GamestopCollection>'` repr, and the pattern of
its sibling collections — so a record loaded into a Gamestop collection is
inventory-typed: its `name` reads `'desc'` rather than `'product-name'` and
its accessors never parse `'gamestop-price'` through `money_to_float`. -/
theorem claim_C8 :
    GamestopCollection_fromList [[("product-name", "Halo 3"), ("desc", "Unrelated")]] =
      [⟨ItemKind.inventory, [("product-name", "Halo 3"), ("desc", "Unrelated")]⟩] ∧
    itemName ⟨ItemKind.inventory, [("product-name", "Halo 3"), ("desc", "Unrelated")]⟩ =
      some "Unrelated" ∧
    itemName ⟨ItemKind.gamestop, [("product-name", "Halo 3"), ("desc", "Unrelated")]⟩ =
      some "Halo 3" ∧
    itemGamestopPrice
        ⟨ItemKind.inventory, [("product-name", "Halo 3"), ("desc", "Unrelated")]⟩ =
      none ∧
    ItemKind.inventory ≠ ItemKind.gamestop := by
  refine ⟨by decide, by decide, by decide, rfl, by decide⟩

/-- Claim C9, counterexample: `csv.DictWriter` is constructed with the
default `extrasaction='raise'`, so a record carrying a column the header
omits raises a ValueError naming the extra column instead of being written
with the value dropped; a record only lacking listed columns is still
written with those columns empty. -/
theorem claim_C9_counterexample :
    write_with_ids [[("sku", "1"), ("foo", "x")]] = Except.error ["foo"] ∧
    write_with_ids [[("sku", "1")]] =
      Except.ok [EXPORT_KEYS, ["1", "", "", "", "", "", "", "", "", ""]] := by
  refine ⟨rfl, rfl⟩

/-- Claim C9, amended: when every key of every record is among the listed
output columns, the writer emits exactly header plus one row per record with
absent columns written empty and no error; but a record carrying a column
the header omits makes the row conversion raise a ValueError listing that
column — the extra value is not silently dropped. -/
theorem claim_C9 :
    (∀ rows : List Rec, (∀ d ∈ rows, ∀ kv ∈ d, kv.1 ∈ EXPORT_KEYS) →
      write_with_ids rows =
        Except.ok (EXPORT_KEYS ::
          rows.map (fun d => EXPORT_KEYS.map (fun k => (dictGet d k).getD "")))) ∧
    (∀ (d : Rec) (kv : String × String), kv ∈ d → kv.1 ∉ EXPORT_KEYS →
      ∃ bad, dictToRow EXPORT_KEYS "" d = Except.error bad ∧ kv.1 ∈ bad) := by
  constructor
  · intro rows hall
    simp only [write_with_ids, writeRows_ok rows hall]
    rfl
  · intro d kv hkv hnot
    have hmem : kv.1 ∈ (d.map Prod.fst).filter (fun k => !(EXPORT_KEYS.contains k)) :=
      List.mem_filter.mpr ⟨List.mem_map_of_mem _ hkv,
        by simp [List.contains, List.elem_iff, hnot]⟩
    refine ⟨(d.map Prod.fst).filter (fun k => !(EXPORT_KEYS.contains k)), ?_, hmem⟩
    simp only [dictToRow, if_neg (List.ne_nil_of_mem hmem)]

theorem claim_C9_witness :
    write_with_ids [[("sku", "7"), ("id", "42")]] =
      Except.ok (EXPORT_KEYS ::
        ([[("sku", "7"), ("id", "42")]] : List Rec).map
          (fun d => EXPORT_KEYS.map (fun k => (dictGet d k).getD ""))) :=
  claim_C9.1 [[("sku", "7"), ("id", "42")]] (by decide)

theorem gamestop_to_ours_eq_none (price : Rat)
    (n1 : ¬(price ≤ 799/100))
    (n2 : ¬(799/100 < price ∧ price ≤ 899/100))
    (n3 : ¬(9 < price ∧ price ≤ 999/100))
    (n4 : ¬(10 < price ∧ price ≤ 1399/100))
    (n5 : ¬(14 < price ∧ price ≤ 1499/100))
    (n6 : ¬(15 < price ∧ price ≤ 1799/100))
    (n7 : ¬(18 < price ∧ price ≤ 1999/100))
    (n8 : ¬(20 < price ∧ price ≤ 2499/100))
    (n9 : ¬(25 < price ∧ price ≤ 2799/100))
    (n10 : ¬(28 < price ∧ price ≤ 3198/100))
    (n11 : ¬(3199/100 < price ∧ price ≤ 3499/100))
    (n12 : ¬(35 < price ∧ price ≤ 3699/100))
    (n13 : ¬(37 < price ∧ price ≤ 3999/100))
    (n14 : ¬(40 < price ∧ price ≤ 4798/100))
    (n15 : ¬(4799/100 < price ∧ price ≤ 5299/100))
    (n16 : ¬(5299/100 < price)) :
    gamestop_to_ours price = none := by
  simp only [gamestop_to_ours]
  rw [if_neg n16, if_neg n15, if_neg n14, if_neg n13, if_neg n12, if_neg n11,
    if_neg n10, if_neg n9, if_neg n8, if_neg n7, if_neg n6, if_neg n5, if_neg n4,
    if_neg n3, if_neg n2, if_neg n1]

/-- Claim C10, confirmed: the tier table of `gamestop_to_ours` has gaps —
at exactly 9, at exactly 10, on all of (31.98, 31.99], and on all of
(47.98, 47.99] no branch condition holds, so `ours` keeps its initial `None`
and no price string is produced. -/
theorem claim_C10 :
    gamestop_to_ours 9 = none ∧
    gamestop_to_ours 10 = none ∧
    (∀ price : Rat, 3198/100 < price → price ≤ 3199/100 →
      gamestop_to_ours price = none) ∧
    (∀ price : Rat, 4798/100 < price → price ≤ 4799/100 →
      gamestop_to_ours price = none) := by
  refine ⟨by simp only [gamestop_to_ours]; norm_num,
    by simp only [gamestop_to_ours]; norm_num, ?_, ?_⟩
  · intro price h1 h2
    exact gamestop_to_ours_eq_none price
      (by intro hc; linarith)
      (by rintro ⟨_, hc⟩; linarith)
      (by rintro ⟨_, hc⟩; linarith)
      (by rintro ⟨_, hc⟩; linarith)
      (by rintro ⟨_, hc⟩; linarith)
      (by rintro ⟨_, hc⟩; linarith)
      (by rintro ⟨_, hc⟩; linarith)
      (by rintro ⟨_, hc⟩; linarith)
      (by rintro ⟨_, hc⟩; linarith)
      (by rintro ⟨_, hc⟩; linarith)
      (by rintro ⟨hc, _⟩; linarith)
      (by rintro ⟨hc, _⟩; linarith)
      (by rintro ⟨hc, _⟩; linarith)
      (by rintro ⟨hc, _⟩; linarith)
      (by rintro ⟨hc, _⟩; linarith)
      (by intro hc; linarith)
  · intro price h1 h2
    exact gamestop_to_ours_eq_none price
      (by intro hc; linarith)
      (by rintro ⟨_, hc⟩; linarith)
      (by rintro ⟨_, hc⟩; linarith)
      (by rintro ⟨_, hc⟩; linarith)
      (by rintro ⟨_, hc⟩; linarith)
      (by rintro ⟨_, hc⟩; linarith)
      (by rintro ⟨_, hc⟩; linarith)
      (by rintro ⟨_, hc⟩; linarith)
      (by rintro ⟨_, hc⟩; linarith)
      (by rintro ⟨_, hc⟩; linarith)
      (by rintro ⟨_, hc⟩; linarith)
      (by rintro ⟨_, hc⟩; linarith)
      (by rintro ⟨_, hc⟩; linarith)
      (by rintro ⟨_, hc⟩; linarith)
      (by rintro ⟨hc, _⟩; linarith)
      (by intro hc; linarith)

theorem claim_C10_witness : gamestop_to_ours (3199/100) = none :=
  claim_C10.2.2.1 (3199/100) (by norm_num) (by norm_num)

end PriceCsv









